import Mathlib

/-!
# Verification of `download_stats.py` (esports_scrapping_dpm)

A shallow embedding of the pure core of `src/download_stats.py`:

* `parse_relative_date_string` — the relative-date resolver (primary parser
  plus a `dateparser` fallback, modelled as an oracle parameter `dp`);
* `parse_esports_data` — the schedule-document extractor over an HTML-tree
  model (`Node`), with BeautifulSoup search semantics;
* `parse_h2h_from_dpm_match_view` — the stats/H2H extractor and the
  team-order alignment merge;
* `create_dpm_lol_date_urls` — date bucketing and URL generation;
* the `main` per-game merge loop guard (`processPlaynowGame`), with the
  browser interaction abstracted as an oracle `fetchView`.

Naive `datetime` values are modelled as a serial day count since 1970-01-01
plus minutes within the day.  Python's `datetime.now()` reference instant is a
parameter (`current_dt`), `dateparser.parse` is an oracle parameter (`dp`),
and `strftime` rendering (whose output string no claim inspects) is an
oracle parameter (`fmt`).  Exceptions that escape a Python function are
modelled with `Except`.

Python string primitives are implemented here by structural recursion over
`List Char` (the inputs this program handles are ASCII), so that every
definition evaluates inside the kernel.
-/

/-! ## Python string helpers -/

/-- ASCII case folding for `str.lower()`. -/
def lowerChar (c : Char) : Char :=
  if 'A' ≤ c && c ≤ 'Z' then Char.ofNat (c.toNat + 32) else c

/-- ASCII case folding for `str.upper()`. -/
def upperChar (c : Char) : Char :=
  if 'a' ≤ c && c ≤ 'z' then Char.ofNat (c.toNat - 32) else c

def pyLower (s : String) : String := String.mk (s.toList.map lowerChar)

def pyUpper (s : String) : String := String.mk (s.toList.map upperChar)

/-- Python `str.strip()` with no arguments. -/
def pyTrim (s : String) : String :=
  String.mk
    (((s.toList.dropWhile (fun c => c.isWhitespace)).reverse.dropWhile
      (fun c => c.isWhitespace)).reverse)

def pyStartsWith (s p : String) : Bool := p.toList.isPrefixOf s.toList

def pyEndsWith (s p : String) : Bool :=
  p.toList.reverse.isPrefixOf s.toList.reverse

/-- Python `s[:n]`. -/
def pyTake (s : String) (n : Nat) : String := String.mk (s.toList.take n)

/-- Python `s[:-n]`. -/
def pyDropRight (s : String) (n : Nat) : String :=
  String.mk (s.toList.take (s.toList.length - n))

/-- Python `s[-n:]`. -/
def pyTakeRight (s : String) (n : Nat) : String :=
  String.mk (s.toList.drop (s.toList.length - n))

def pySplitAux : List Char → List Char → List String
  | [], acc => if acc.isEmpty then [] else [String.mk acc.reverse]
  | c :: cs, acc =>
    if c.isWhitespace then
      (if acc.isEmpty then pySplitAux cs []
       else String.mk acc.reverse :: pySplitAux cs [])
    else pySplitAux cs (c :: acc)

/-- Python `str.split()` with no arguments: split on whitespace runs,
dropping empty pieces. -/
def pySplit (s : String) : List String := pySplitAux s.toList []

/-- Whether `needle` occurs as a contiguous sublist of `hay` (Python `in` on str). -/
def subOfList (needle : List Char) : List Char → Bool
  | [] => needle.isEmpty
  | c :: cs => needle.isPrefixOf (c :: cs) || subOfList needle cs

/-- Python `needle in hay` substring test. -/
def strContains (hay needle : String) : Bool :=
  subOfList needle.toList hay.toList

/-- Python `s.replace(" ", "")`. -/
def removeSpaces (s : String) : String :=
  String.mk (s.toList.filter (fun c => c ≠ ' '))

/-- The characters after the first occurrence of `c` (for Python
`s.split(c, 1)[-1]`, used only after an `in` check). -/
def afterFirstChar (c : Char) : List Char → List Char
  | [] => []
  | x :: xs => if x = c then xs else afterFirstChar c xs

/-- Python `s.split(sep, 1)[-1]` for a single-character `sep` known to occur. -/
def afterFirst (c : Char) (s : String) : String :=
  String.mk (afterFirstChar c s.toList)

/-- Python `str.isdigit()` restricted to ASCII inputs: nonempty and all
digits. -/
def pyIsDigit (s : String) : Bool :=
  !s.toList.isEmpty && s.toList.all (fun c => c.isDigit)

/-- Space-joined class list (the joined value BeautifulSoup also matches a
`class_` lambda against). -/
def joinSpace : List String → String
  | [] => ""
  | [s] => s
  | s :: rest => s ++ " " ++ joinSpace rest

def splitOnCharAux (c : Char) : List Char → List Char → List String
  | [], acc => [String.mk acc.reverse]
  | x :: xs, acc =>
    if x = c then String.mk acc.reverse :: splitOnCharAux c xs []
    else splitOnCharAux c xs (x :: acc)

/-- Python `s.split(sep)` for a single-character separator. -/
def splitOnChar (c : Char) (s : String) : List String :=
  splitOnCharAux c s.toList []

def natOfDigitsAux : List Char → Nat → Nat
  | [], acc => acc
  | c :: cs, acc => natOfDigitsAux cs (acc * 10 + (c.toNat - 48))

/-- Python `int(s)`, total on the canonical nonnegative decimal keys this
program generates (an optional leading minus sign is honoured; other
malformed inputs, on which Python would raise, are given a junk value). -/
def pyInt (s : String) : Int :=
  match s.toList with
  | '-' :: ds => -(natOfDigitsAux ds 0 : Int)
  | ds => (natOfDigitsAux ds 0 : Int)

/-! ## The datetime model

`day` counts days since 1970-01-01; `minute` is the time of day in minutes.
Python's `date`/`datetime` comparisons, `timedelta(days = n)`, `weekday()`
(Monday = 0; 1970-01-01 was a Thursday) and the civil fields `.day`/`.month`
are derived below. -/

structure DateTime where
  day : Int
  minute : Nat
deriving DecidableEq, Repr

/-- Python `<` on naive datetimes. -/
def DateTime.ltb (a b : DateTime) : Bool :=
  decide (a.day < b.day) || (a.day == b.day && decide (a.minute < b.minute))

/-- Python `date.weekday()`: Monday = 0.  Day 0 (1970-01-01) was a Thursday. -/
def pyWeekday (d : DateTime) : Int :=
  (d.day + 3) % 7

/-- Civil calendar fields `(year, month, dayOfMonth)` of a serial day count
(days since 1970-01-01), Hinnant's `civil_from_days` with C-style truncated
division. -/
def civilOfDay (z0 : Int) : Int × Int × Int :=
  let z := z0 + 719468
  let era := (if 0 ≤ z then z else z - 146096).tdiv 146097
  let doe := z - era * 146097
  let yoe := (doe - doe.tdiv 1460 + doe.tdiv 36524 - doe.tdiv 146096).tdiv 365
  let y := yoe + era * 400
  let doy := doe - (365 * yoe + yoe.tdiv 4 - yoe.tdiv 100)
  let mp := (5 * doy + 2).tdiv 153
  let d := doy - (153 * mp + 2).tdiv 5 + 1
  let m := mp + (if mp < 10 then 3 else -9)
  (y + (if m ≤ 2 then 1 else 0), m, d)

/-- Python `dt.month`. -/
def DateTime.month (d : DateTime) : Int := (civilOfDay d.day).2.1

/-- Python `dt.day` (day of month). -/
def DateTime.dayOfMonth (d : DateTime) : Int := (civilOfDay d.day).2.2

/-! ## The 12-hour time parser (`datetime.strptime` with `%I:%M %p`)

CPython's `_strptime` compiles the format to a regex:
`%I` is `1[0-2]|0[1-9]|[1-9]`, `%M` is `[0-5]\d|\d`, `%p` is AM/PM
(case-insensitive), literal `:` matches itself and format whitespace matches
one-or-more whitespace characters; the whole input must be consumed.  The
functions below model that regex, including its backtracking between the
alternatives, and return the time as minutes after midnight
(`hour % 12 + 12 if PM`). -/

/-- AM/PM (case-insensitive): `false` = AM, `true` = PM. -/
def merVal (c1 c2 : Char) : Option Bool :=
  if (c1 = 'A' || c1 = 'a') && (c2 = 'M' || c2 = 'm') then some false
  else if (c1 = 'P' || c1 = 'p') && (c2 = 'M' || c2 = 'm') then some true
  else none

/-- Exactly `AM`/`PM` and then end of input. -/
def parseMerEnd : List Char → Option Bool
  | [c1, c2] => merVal c1 c2
  | _ => none

/-- Greedy tail of a whitespace run. -/
def skipWsMore : List Char → List Char
  | [] => []
  | c :: cs => if c.isWhitespace then skipWsMore cs else c :: cs

/-- Regex `\s+`: at least one whitespace character. -/
def skipWs1 : List Char → Option (List Char)
  | [] => none
  | c :: cs => if c.isWhitespace then some (skipWsMore cs) else none

/-- After hour and minute: optional mandatory whitespace (per the format),
then AM/PM, then end of input; assemble the minutes-after-midnight value. -/
def afterMin (spaced : Bool) (h m : Nat) (rest : List Char) : Option Nat :=
  let mer? : Option Bool :=
    if spaced then
      match skipWs1 rest with
      | some r => parseMerEnd r
      | none => none
    else parseMerEnd rest
  match mer? with
  | some pm => some ((h % 12 + (if pm then 12 else 0)) * 60 + m)
  | none => none

/-- Minute field `%M` = `[0-5]\d|\d` with backtracking into the continuation. -/
def parseMin (spaced : Bool) (h : Nat) : List Char → Option Nat
  | c1 :: c2 :: rest =>
    (if ('0' ≤ c1 && c1 ≤ '5') && c2.isDigit then
        afterMin spaced h (10 * (c1.toNat - 48) + (c2.toNat - 48)) rest
      else none)
    <|> (if c1.isDigit then afterMin spaced h (c1.toNat - 48) (c2 :: rest) else none)
  | [c1] => if c1.isDigit then afterMin spaced h (c1.toNat - 48) [] else none
  | [] => none

/-- Hour field `%I` = `1[0-2]|0[1-9]|[1-9]` with backtracking into the continuation. -/
def parseHourThen (k : Nat → List Char → Option Nat) : List Char → Option Nat
  | '1' :: c :: rest =>
    (if '0' ≤ c && c ≤ '2' then k (10 + (c.toNat - 48)) rest else none)
    <|> k 1 (c :: rest)
  | '0' :: c :: rest => if '1' ≤ c && c ≤ '9' then k (c.toNat - 48) rest else none
  | c :: rest => if '1' ≤ c && c ≤ '9' then k (c.toNat - 48) rest else none
  | [] => none

/-- Model of `datetime.strptime(s, fmt).time()` for `fmt = "%I:%M %p"` (`spaced`) or
`"%I:%M%p"` (not `spaced`), as minutes after midnight. -/
def strptimeTime (spaced : Bool) (s : String) : Option Nat :=
  parseHourThen
    (fun h rest =>
      match rest with
      | ':' :: r2 => parseMin spaced h r2
      | _ => none)
    s.toList

/-- Lines 143-153: re-space a trailing `am`/`pm` suffix, uppercase, then try
`%I:%M %p` and fall back to `%I:%M%p` on the space-stripped string. -/
def normalizeTimeToken (t : String) : String :=
  pyUpper
    (if pyEndsWith t "am" || pyEndsWith t "pm" then
        (if pyEndsWith (pyDropRight t 2) " " then t
         else pyDropRight t 2 ++ " " ++ pyTakeRight t 2)
      else t)

def parseEventTime (time_part_input : String) : Option Nat :=
  let cleaned := normalizeTimeToken time_part_input
  match strptimeTime true cleaned with
  | some m => some m
  | none => strptimeTime false (removeSpaces cleaned)

/-! ## `parse_relative_date_string` -/

/-- Line 163: the weekday-name table. -/
def daysMap (s : String) : Option Int :=
  if s = "mon" then some 0
  else if s = "tue" then some 1
  else if s = "wed" then some 2
  else if s = "thu" then some 3
  else if s = "fri" then some 4
  else if s = "sat" then some 5
  else if s = "sun" then some 6
  else none

/-- Lines 135-196: the primary parsing logic (the `try` block); `none` models
the caught `ValueError`. -/
def primaryParse (date_str : String) (current_dt : DateTime) : Option DateTime :=
  match pySplit (pyLower date_str) with
  | [] => none
  | day_part :: restParts =>
    match parseEventTime (String.join restParts) with
    | none => none
    | some t =>
      if day_part = "today" then some ⟨current_dt.day, t⟩
      else if day_part = "tomorrow" then some ⟨current_dt.day + 1, t⟩
      else
        match daysMap (pyTake day_part 3) with
        | none => none
        | some target_weekday =>
          let days_ahead := target_weekday - pyWeekday current_dt
          let days_ahead := if days_ahead < 0 then days_ahead + 7 else days_ahead
          let prospective := current_dt.day + days_ahead
          if DateTime.ltb ⟨prospective, t⟩ current_dt && decide (prospective ≤ current_dt.day)
          then some ⟨prospective + 7, t⟩
          else some ⟨prospective, t⟩

/-- Lines 116-233.  `dp` is the `dateparser.parse(·, settings)` oracle
(returning `none` both when `dateparser` yields nothing and when it raises).
When the primary block raised before `day_part` was bound (empty token list)
and the fallback result is before the reference, evaluating the guard raises
`UnboundLocalError`, which the bare `except` turns into `None`; the
`pySplit ... = []` branch reproduces that, including the short-circuit that
returns the fallback result untouched when it is not before the reference. -/
def parse_relative_date_string (dp : String → Option DateTime)
    (date_str : String) (current_dt : DateTime) : Option DateTime :=
  if date_str = "" ∨ date_str = "N/A" then none
  else
    match primaryParse date_str current_dt with
    | some c => some c
    | none =>
      match dp date_str with
      | none => none
      | some p =>
        match pySplit (pyLower date_str) with
        | [] => if DateTime.ltb p current_dt then none else some p
        | day_part :: _ =>
          if DateTime.ltb p current_dt
              && !(day_part == "today" && p.day == current_dt.day) then
            (if p.day < current_dt.day then none else some p)
          else some p

/-! ## The HTML tree model and BeautifulSoup search semantics

A parsed document is a tree of element and text nodes.  `attrs` holds the
non-`class` attributes (`id`, `data-testid`, `data-state`, `href`, `alt`);
`classes` is the multi-valued `class` attribute (empty list when absent).

BeautifulSoup facts modelled here:
* `find`/`find_all` search the *descendants* of the receiver in document
  (pre-)order, never the receiver itself; `recursive=False` restricts to
  direct children; text nodes never match a tag-name filter;
* a function passed as `class_` matches when it returns `True` on any single
  class of the multi-valued attribute or on the space-joined full value, and
  an absent `class` attribute never matches the guarded lambdas used here;
* `tag.string` is the unique `NavigableString` reached through
  single-child tags, if any;
* `tag.text` / `get_text()` concatenates all descendant strings;
  `stripped_strings` yields each descendant string stripped, skipping
  empties. -/

inductive Node where
  | elem (tag : String) (attrs : List (String × String)) (classes : List String)
      (children : List Node)
  | text (s : String)

def Node.tag? : Node → Option String
  | .elem t _ _ _ => some t
  | .text _ => none

def Node.attr (n : Node) (k : String) : Option String :=
  match n with
  | .elem _ attrs _ _ => attrs.lookup k
  | .text _ => none

def Node.classes : Node → List String
  | .elem _ _ cl _ => cl
  | .text _ => []

def Node.children : Node → List Node
  | .elem _ _ _ cs => cs
  | .text _ => []

/-- Direct children that are element nodes (`find_all(recursive=False)`). -/
def Node.childrenEl (n : Node) : List Node :=
  n.children.filter (fun c => c.tag?.isSome)

mutual

/-- All descendant strings, in document order (`get_text()` pieces). -/
def nodeTexts : Node → List String
  | Node.text s => [s]
  | Node.elem _ _ _ cs => nodeTextsList cs

def nodeTextsList : List Node → List String
  | [] => []
  | c :: cs => nodeTexts c ++ nodeTextsList cs

end

/-- BeautifulSoup `tag.text` / `get_text()`. -/
def nodeText (n : Node) : String := String.join (nodeTexts n)

/-- BeautifulSoup `tag.stripped_strings`. -/
def strippedStrings (n : Node) : List String :=
  ((nodeTexts n).map pyTrim).filter (fun s => s ≠ "")

/-- BeautifulSoup `tag.get_text(strip=True)`. -/
def getTextStrip (n : Node) : String := String.join (strippedStrings n)

/-- BeautifulSoup `tag.string`: follow unique children; `none` when ambiguous. -/
def nodeString : Node → Option String
  | Node.text s => some s
  | Node.elem _ _ _ [c] => nodeString c
  | Node.elem _ _ _ _ => none

mutual

/-- The descendants of a node in document (pre-)order, each paired with its
ancestor chain, innermost ancestor first (the receiver of the search is the
outermost entry of every chain). -/
def descAnc (anc : List Node) : Node → List (List Node × Node)
  | Node.text _ => []
  | Node.elem t a cl cs => descAncList (Node.elem t a cl cs :: anc) cs

def descAncList (anc : List Node) : List Node → List (List Node × Node)
  | [] => []
  | c :: cs => (anc, c) :: (descAnc anc c ++ descAncList anc cs)

end

/-- BeautifulSoup `find_all(pred)`: all matching descendants in document order. -/
def findAllNodes (n : Node) (p : Node → Bool) : List Node :=
  (((descAnc [] n).map Prod.snd).filter p)

/-- BeautifulSoup `find(pred)`: the first matching descendant. -/
def findFirst (n : Node) (p : Node → Bool) : Option Node :=
  ((descAnc [] n).map Prod.snd).find? p

/-- BeautifulSoup `find(pred)` keeping the ancestor chain (for `find_parent`/`.parent`). -/
def findFirstAnc (n : Node) (p : Node → Bool) : Option (List Node × Node) :=
  (descAnc [] n).find? (fun x => p x.2)

/-- A `class_` lambda applied to a multi-valued class attribute. -/
def classMatch (p : String → Bool) (classes : List String) : Bool :=
  classes.any p || (!classes.isEmpty && p (joinSpace classes))

def tagIs (t : String) (n : Node) : Bool := n.tag? == some t

def testidIs (v : String) (n : Node) : Bool := n.attr "data-testid" == some v

/-- BeautifulSoup `find(t, class_=lambda x: x and x.startswith(p))`. -/
def classPrefixPred (t p : String) (n : Node) : Bool :=
  tagIs t n && classMatch (fun c => pyStartsWith c p) n.classes

/-! ## `parse_esports_data` (lines 22-114)

The reference instant `current_dt` stands for line 38's `datetime.now()`;
`dp` is the `dateparser` oracle threaded into the date resolver; `fmt`
renders line 92's `strftime` pattern.  A record's `date_time` key is absent
for live games, and holds either a datetime or Python `None` otherwise. -/

inductive PyDateVal where
  | absent
  | pyNone
  | dt (d : DateTime)
deriving DecidableEq, Repr

structure HistGame where
  date : String
  team1_name : String
  score1 : String
  team2_name : String
  score2 : String
  winner : String
deriving DecidableEq, Repr

structure H2HData where
  all_time_wins_t1 : Option String
  all_time_wins_t2 : Option String
  all_time_wins_dpm_order_t1 : Option String
  all_time_wins_dpm_order_t2 : Option String
  last_5_games : List HistGame
deriving DecidableEq, Repr

structure GameData where
  region : String
  team1_name : String
  team2_name : String
  live_status : String
  date_string : String
  date_time : PyDateVal
  date_time_formatted : Option String
  team1_odds : String
  team2_odds : String
  dpm_h2h : Option H2HData
deriving DecidableEq, Repr

def teamAPred (n : Node) : Bool := tagIs "div" n && testidIs "event-card-team-name-a" n
def teamBPred (n : Node) : Bool := tagIs "div" n && testidIs "event-card-team-name-b" n
def liveClockPred (n : Node) : Bool := tagIs "div" n && testidIs "event-card-event-clock" n
def outcomeBtnPred (n : Node) : Bool := tagIs "button" n && testidIs "outcome-button" n
def eventHeaderPred (n : Node) : Bool := tagIs "div" n && testidIs "event-header" n

/-- Lines 100-108: the price span inside one outcome button. -/
def oddsFromButton (b : Node) : String :=
  match findFirst b (classPrefixPred "span" "outcomePriceCommon-") with
  | some e => pyTrim (nodeText e)
  | none => "N/A"

/-- Lines 70-113: one `<li>` game item.  The `Except.error` models the
uncaught `AttributeError` of line 92 (`None.strftime`) when the date
resolver yields no value for a scheduled game. -/
def parseGameItem (dp : String → Option DateTime) (fmt : DateTime → String)
    (current_dt : DateTime) (region : String) (li : Node) :
    Except String GameData :=
  let team1 := match findFirst li teamAPred with
    | some e => pyTrim (nodeText e)
    | none => "N/A"
  let team2 := match findFirst li teamBPred with
    | some e => pyTrim (nodeText e)
    | none => "N/A"
  let buttons := findAllNodes li outcomeBtnPred
  let odds1 := match buttons[0]? with
    | some b => oddsFromButton b
    | none => "N/A"
  let odds2 := match buttons[1]? with
    | some b => oddsFromButton b
    | none => "N/A"
  match findFirst li liveClockPred with
  | some _ =>
    Except.ok ⟨region, team1, team2, "Live Now", "N/A", PyDateVal.absent, none,
      odds1, odds2, none⟩
  | none =>
    let ds := match findFirst li (classPrefixPred "span" "eventCardEventStartTimeText-") with
      | some e => pyTrim (nodeText e)
      | none => ""
    match parse_relative_date_string dp ds current_dt with
    | some d =>
      Except.ok ⟨region, team1, team2, "Scheduled", ds, PyDateVal.dt d,
        some (fmt d), odds1, odds2, none⟩
    | none => Except.error "AttributeError: NoneType object has no attribute strftime"

def parseListItems (dp : String → Option DateTime) (fmt : DateTime → String)
    (current_dt : DateTime) (region : String) :
    List Node → Except String (List GameData)
  | [] => Except.ok []
  | li :: rest => do
    let g ← parseGameItem dp fmt current_dt region li
    let gs ← parseListItems dp fmt current_dt region rest
    Except.ok (g :: gs)

/-- Lines 49-113: the direct children of a `timeBandGroupContent-` container
(alternating region headers and game-list wrappers), threading the
`current_region` accumulator. -/
def processContentChildren (dp : String → Option DateTime) (fmt : DateTime → String)
    (current_dt : DateTime) : String → List Node → Except String (List GameData)
  | _, [] => Except.ok []
  | region, el :: rest =>
    if eventHeaderPred el then
      let region' :=
        match findFirst el (classPrefixPred "span" "sportsHeaderName-") with
        | some sp =>
          let t := pyTrim (nodeText sp)
          if pyStartsWith t "[" && t.toList.contains ']' then pyTrim (afterFirst ']' t)
          else t
        | none => "Unknown Region"
      processContentChildren dp fmt current_dt region' rest
    else if tagIs "div" el then
      match findFirst el (classPrefixPred "ul" "eventList-") with
      | some ul => do
        let lis := ul.childrenEl.filter (classPrefixPred "li" "eventListItem-")
        let gs ← parseListItems dp fmt current_dt region lis
        let rest' ← processContentChildren dp fmt current_dt region rest
        Except.ok (gs ++ rest')
      | none => processContentChildren dp fmt current_dt region rest
    else processContentChildren dp fmt current_dt region rest

def parseTimeBandGroup (dp : String → Option DateTime) (fmt : DateTime → String)
    (current_dt : DateTime) (grp : Node) : Except String (List GameData) :=
  match findFirst grp (classPrefixPred "div" "timeBandGroupContent-") with
  | none => Except.ok []
  | some cc => processContentChildren dp fmt current_dt "Unknown Region" cc.childrenEl

def parseGroups (dp : String → Option DateTime) (fmt : DateTime → String)
    (current_dt : DateTime) : List Node → Except String (List GameData)
  | [] => Except.ok []
  | grp :: rest => do
    let gs ← parseTimeBandGroup dp fmt current_dt grp
    let rest' ← parseGroups dp fmt current_dt rest
    Except.ok (gs ++ rest')

def parse_esports_data (dp : String → Option DateTime) (fmt : DateTime → String)
    (soup : Node) (current_dt : DateTime) : Except String (List GameData) :=
  parseGroups dp fmt current_dt
    (findAllNodes soup (classPrefixPred "div" "timeBandGroup-"))

/-! ## `parse_h2h_from_dpm_match_view` (lines 370-489) -/

/-- Line 383: `div` with an `id` starting `radix-` and `data-state="open"`. -/
def isRadixOpen (n : Node) : Bool :=
  tagIs "div" n
    && (match n.attr "id" with
        | some i => pyStartsWith i "radix-"
        | none => false)
    && n.attr "data-state" == some "open"

/-- Line 388: `find('span', string=lambda s: s and "ALL TIME WINS" in s.upper())`. -/
def allTimeWinsSpanPred (n : Node) : Bool :=
  tagIs "span" n
    && (match nodeString n with
        | some s => strContains (pyUpper s) "ALL TIME WINS"
        | none => false)

/-- Lines 397 and 438: `find('span', string=lambda s: s and "LAST 5 GAMES" in s.upper())`. -/
def last5SpanPred (n : Node) : Bool :=
  tagIs "span" n
    && (match nodeString n with
        | some s => strContains (pyUpper s) "LAST 5 GAMES"
        | none => false)

/-- Line 391: `find_parent('div', class_=lambda c: c and 'flex-col' in c and
'items-center' in c and 'gap-8' in c)`. -/
def h2hAncestorDivPred (n : Node) : Bool :=
  tagIs "div" n
    && classMatch
        (fun c => strContains c "flex-col" && strContains c "items-center"
          && strContains c "gap-8") n.classes

/-- Lines 383-403: locate the H2H section: the open `radix-` panel, else walk
up from the "ALL TIME WINS" span (`find_parent`, then up to three `.parent`
steps looking for a `div` containing a "LAST 5 GAMES" span). -/
def findH2HSection (soup : Node) : Option Node :=
  match findFirst soup isRadixOpen with
  | some s => some s
  | none =>
    match findFirstAnc soup allTimeWinsSpanPred with
    | none => none
    | some (anc, _) =>
      match anc.find? h2hAncestorDivPred with
      | some s => some s
      | none =>
        (anc.take 3).find?
          (fun a => tagIs "div" a && (findFirst a last5SpanPred).isSome)

/-- Line 407: `find_all('a', href=lambda h: h and h.startswith('/esport/teams/'))`. -/
def teamLinkPred (n : Node) : Bool :=
  tagIs "a" n
    && (match n.attr "href" with
        | some h => pyStartsWith h "/esport/teams/"
        | none => false)

/-- BeautifulSoup `find('img', alt=True)`: an `img` carrying an `alt` attribute. -/
def imgAltPred (n : Node) : Bool :=
  tagIs "img" n && (n.attr "alt").isSome

/-- Lines 411-416: team name from an `img`'s alt text, else the link text. -/
def teamNameFromLink (a : Node) : String :=
  match findFirst a imgAltPred with
  | some img => pyTrim ((img.attr "alt").getD "")
  | none => getTextStrip a

/-- Lines 407-416: the document-order team names of the H2H view
(`"N/A"` when the links are missing). -/
def dpmTeamNames (sec : Node) : String × String :=
  let links := findAllNodes sec teamLinkPred
  (match links[0]? with
    | some a => teamNameFromLink a
    | none => "N/A",
   match links[1]? with
    | some a => teamNameFromLink a
    | none => "N/A")

/-- Python `.lower().strip()` name normalization (lines 419-424). -/
def normName (s : String) : String := pyTrim (pyLower s)

/-- Line 429: `find('div', class_=lambda c: c and 'grid-cols-7' in c and
'text-hxs' in c)`. -/
def allWinsContainerPred (n : Node) : Bool :=
  tagIs "div" n
    && classMatch (fun c => strContains c "grid-cols-7" && strContains c "text-hxs")
        n.classes

/-- Line 431: the purely-numeric stripped strings of the container, in
document order. -/
def numericTokens (c : Node) : List String :=
  (strippedStrings c).filterMap
    (fun s => let t := pyTrim s; if pyIsDigit t then some t else none)

/-- Lines 427-434: the ALL TIME WINS counts in the document's team order;
both stay `"N/A"` unless the container is found, carries the label, and
holds *exactly two* numeric tokens. -/
def parseAllTimeWins (sec : Node) : String × String :=
  match findFirst sec allWinsContainerPred with
  | none => ("N/A", "N/A")
  | some c =>
    if strContains (nodeText c) "ALL TIME WINS" then
      let ns := numericTokens c
      if ns.length = 2 then (ns.getD 0 "N/A", ns.getD 1 "N/A")
      else ("N/A", "N/A")
    else ("N/A", "N/A")

/-- Line 445: the date label span of a historical-game row. -/
def histDatePred (n : Node) : Bool :=
  tagIs "span" n
    && classMatch (fun c => strContains c "text-bxs" && strContains c "text-start")
        n.classes

/-- Line 448: the `tabular-nums` score-details container. -/
def scoreDetailsPred (n : Node) : Bool :=
  tagIs "div" n && classMatch (fun c => strContains c "tabular-nums") n.classes

/-- Line 454: the `gap-8 justify-center` score-span container. -/
def scoreContainerPred (n : Node) : Bool :=
  tagIs "div" n
    && classMatch (fun c => strContains c "gap-8" && strContains c "justify-center")
        n.classes

/-- Line 440: the structural signature of a historical-game row. -/
def histRowPred (n : Node) : Bool :=
  tagIs "div" n
    && classMatch
        (fun c => strContains c "grid" && strContains c "grid-cols-3"
          && strContains c "h-44" && strContains c "items-center") n.classes

/-- Line 456: `find_all('span', recursive=False)`. -/
def directSpans (sc : Node) : List Node :=
  sc.children.filter (tagIs "span")

/-- Lines 450-452: the i-th team identity of a row (image alt text). -/
def histTeamName (sdd : Node) (i : Nat) : String :=
  match (findAllNodes sdd imgAltPred)[i]? with
  | some im => if (im.attr "alt").isSome then pyTrim ((im.attr "alt").getD "") else "N/A"
  | none => "N/A"

/-- Lines 441-466: one historical-game row. -/
def parseHistGame (gd : Node) : HistGame :=
  let date := match findFirst gd histDatePred with
    | some e => pyTrim (nodeText e)
    | none => "N/A"
  match findFirst gd scoreDetailsPred with
  | none => ⟨date, "N/A", "N/A", "N/A", "N/A", "N/A"⟩
  | some sdd =>
    let t1 := histTeamName sdd 0
    let t2 := histTeamName sdd 1
    match findFirst sdd scoreContainerPred with
    | none => ⟨date, t1, "N/A", t2, "N/A", "N/A"⟩
    | some sc =>
      match directSpans sc with
      | [s1, s2] =>
        let sc1 := pyTrim (nodeText s1)
        let sc2 := pyTrim (nodeText s2)
        let c1 := s1.classes
        let c2 := s2.classes
        let winner :=
          if c1.contains "font-black"
              || (!(c1.contains "opacity-50") && c2.contains "opacity-50") then t1
          else if c2.contains "font-black"
              || (!(c2.contains "opacity-50") && c1.contains "opacity-50") then t2
          else "N/A"
        ⟨date, t1, sc1, t2, sc2, winner⟩
      | _ => ⟨date, t1, "N/A", t2, "N/A", "N/A"⟩

/-- Lines 436-466: the LAST 5 GAMES rows (empty unless the anchor span is
found). -/
def parseLast5 (sec : Node) : List HistGame :=
  match findFirst sec last5SpanPred with
  | none => []
  | some _ => (findAllNodes sec histRowPred).map parseHistGame

/-- Lines 370-489.  Returns the (possibly) updated game record; the Python
function mutates `playnow_game_to_update` in place and returns early,
leaving it untouched, when no H2H section is found. -/
def parse_h2h_from_dpm_match_view (soup : Node) (g : GameData)
    (dpm_url_date_str : String) (script_run_dt : DateTime) : GameData :=
  match findH2HSection soup with
  | none => g
  | some sec =>
    let d1n := normName (dpmTeamNames sec).1
    let d2n := normName (dpmTeamNames sec).2
    let p1n := normName g.team1_name
    let p2n := normName g.team2_name
    let wins := parseAllTimeWins sec
    let l5 := parseLast5 sec
    let h : H2HData :=
      if d1n = p1n ∧ d2n = p2n then
        ⟨some wins.1, some wins.2, none, none, l5⟩
      else if d1n = p2n ∧ d2n = p1n then
        ⟨some wins.2, some wins.1, none, none, l5⟩
      else
        ⟨none, none, some wins.1, some wins.2, l5⟩
    { g with dpm_h2h := some h }

/-! ## The merge loop of `main` (lines 549-585)

Everything the loop body does between the guard and the H2H parse is browser
interaction (navigate, click, retrieve page source); it is abstracted as the
oracle `fetchView`, which returns the detailed-match-view soup when the
interaction succeeds. -/

def processPlaynowGame (fetchView : GameData → Option Node)
    (dpm_page_date_str : String) (script_run_dt : DateTime) (g : GameData) :
    GameData :=
  if g.dpm_h2h.isSome then g
  else
    match fetchView g with
    | some soup => parse_h2h_from_dpm_match_view soup g dpm_page_date_str script_run_dt
    | none => g

/-! ## `create_dpm_lol_date_urls` (lines 235-272) -/

def dpmBase : String := "https://dpm.lol/esport/?date="

/-- Line 257: `f"{dt_object.day}-{dt_object.month}"`. -/
def dateKey (d : DateTime) : String :=
  toString d.dayOfMonth ++ "-" ++ toString d.month

/-- Append a game to its bucket, preserving first-seen key order
(`games_by_date[date_str].append(game)`). -/
def bucketAppend : List (String × List GameData) → String → GameData →
    List (String × List GameData)
  | [], k, g => [(k, [g])]
  | (k1, gs) :: rest, k, g =>
    if k1 = k then (k1, gs ++ [g]) :: rest
    else (k1, gs) :: bucketAppend rest k g

/-- Lines 251-264: one iteration of the loop; `unique_date_strings` is
modelled as a first-insertion-ordered duplicate-free list (the only uses are
membership and the final key-sort, for which any set order is equivalent). -/
def addGameToBuckets (acc : List String × List (String × List GameData))
    (g : GameData) : List String × List (String × List GameData) :=
  match g.date_time with
  | PyDateVal.dt d =>
    let k := dateKey d
    (if acc.1.contains k then acc.1 else acc.1 ++ [k], bucketAppend acc.2 k g)
  | _ => acc

def collectDates (games : List GameData) :
    List String × List (String × List GameData) :=
  games.foldl addGameToBuckets ([], [])

/-- Line 268: `tuple(map(int, d_str.split('-')))` (Python `int` is total on
the well-formed keys this program generates). -/
def sortKeyOf (s : String) : List Int :=
  (splitOnChar '-' s).map pyInt

/-- Python tuple `<=` on integer tuples (lexicographic). -/
def listIntLe : List Int → List Int → Bool
  | [], _ => true
  | _ :: _, [] => false
  | a :: as, b :: bs => decide (a < b) || (a == b && listIntLe as bs)

def keyLe (a b : String) : Prop := listIntLe (sortKeyOf a) (sortKeyOf b) = true

instance : DecidableRel keyLe := fun a b =>
  inferInstanceAs (Decidable (listIntLe (sortKeyOf a) (sortKeyOf b) = true))

/-- Lines 266-269: `sorted(list(unique_date_strings), key=...)` — a sort of
the key set ascending by the parsed integer tuples (Python's sort is stable;
on the duplicate-free key set any correct sort yields the same list up to
ties between distinct strings with equal numeric tuples, which the generated
canonical keys never produce). -/
def sortedDateKeys (games : List GameData) : List String :=
  List.insertionSort keyLe (collectDates games).1

/-- Lines 235-272: the `(date_urls, games_by_date)` pair. -/
def create_dpm_lol_date_urls (games : List GameData) :
    List String × List (String × List GameData) :=
  ((sortedDateKeys games).map (fun k => dpmBase ++ k), (collectDates games).2)

/-! ## Concrete documents and records used in the claim analyses -/

/-- C2 (refuted; the code, not the claim, is at fault): a schedule document
whose single scheduled item has no start-time node, so its `date_string` is
`""` and the date resolver yields no value.  Line 92 then evaluates
`None.strftime(...)`, raising `AttributeError`: the record is *not* emitted
and the whole extraction aborts, contrary to the spec's "the record itself
is still emitted" / "the core never raises". -/
def c2Doc : Node :=
  Node.elem "[document]" [] [] [
    Node.elem "div" [] ["timeBandGroup-a"] [
      Node.elem "div" [] ["timeBandGroupContent-a"] [
        Node.elem "div" [] [] [Node.elem "ul" [] ["eventList-k"] [
          Node.elem "li" [] ["eventListItem-x"] [
            Node.elem "div" [("data-testid", "event-card-team-name-a")] []
              [Node.text "Alpha"],
            Node.elem "div" [("data-testid", "event-card-team-name-b")] []
              [Node.text "Beta"]]]]]]]

/-- C1 counterexample: a schedule document whose single list item carries a
live indicator node, parsed with reference instant day 100, 00:00.  The
produced record has `live_status = "Live Now"` but *no* `date_time` at all:
its resolved instant is absent, not the reference instant. -/
def c1Doc : Node :=
  Node.elem "[document]" [] [] [
    Node.elem "div" [] ["timeBandGroup-a"] [
      Node.elem "div" [] ["timeBandGroupContent-a"] [
        Node.elem "div" [] [] [Node.elem "ul" [] ["eventList-k"] [
          Node.elem "li" [] ["eventListItem-x"] [
            Node.elem "div" [("data-testid", "event-card-team-name-a")] []
              [Node.text "Alpha"],
            Node.elem "div" [("data-testid", "event-card-team-name-b")] []
              [Node.text "Beta"],
            Node.elem "div" [("data-testid", "event-card-event-clock")] [] []]]]]]]

def c1LiveLi : Node :=
  Node.elem "li" [] ["eventListItem-x"]
    [Node.elem "div" [("data-testid", "event-card-event-clock")] [] []]

def c7Game : GameData :=
  ⟨"R", "A", "B", "Scheduled", "x", PyDateVal.pyNone, none, "N/A", "N/A",
    some ⟨some "3", some "9", none, none, []⟩⟩

def c6Sec : Node :=
  Node.elem "div" [("id", "radix-1"), ("data-state", "open")] [] [
    Node.elem "a" [("href", "/esport/teams/b")] []
      [Node.elem "img" [("alt", "Beta")] [] []],
    Node.elem "a" [("href", "/esport/teams/a")] []
      [Node.elem "img" [("alt", "Alfa")] [] []],
    Node.elem "div" [] ["grid-cols-7", "text-hxs"] [
      Node.elem "span" [] [] [Node.text "ALL TIME WINS"],
      Node.elem "span" [] [] [Node.text "3"],
      Node.elem "span" [] [] [Node.text "9"]]]

def c6Soup : Node := Node.elem "[document]" [] [] [c6Sec]

def c6Game : GameData :=
  ⟨"R", "Alfa", "Beta", "Scheduled", "x", PyDateVal.pyNone, none, "N/A", "N/A",
    none⟩

def c8Container : Node :=
  Node.elem "div" [] ["grid-cols-7", "text-hxs"] [
    Node.elem "span" [] [] [Node.text "ALL TIME WINS"],
    Node.elem "span" [] [] [Node.text "5"],
    Node.elem "span" [] [] [Node.text "7"],
    Node.elem "span" [] [] [Node.text "9"]]

def c8Sec : Node := Node.elem "div" [] [] [c8Container]

def c8Container2 : Node :=
  Node.elem "div" [] ["grid-cols-7", "text-hxs"] [
    Node.elem "span" [] [] [Node.text "ALL TIME WINS"],
    Node.elem "span" [] [] [Node.text "4"],
    Node.elem "span" [] [] [Node.text "6"]]

def c8Sec2 : Node := Node.elem "div" [] [] [c8Container2]

def c9Span1 : Node := Node.elem "span" [] ["font-black"] [Node.text "1"]

def c9Span2 : Node := Node.elem "span" [] ["font-black"] [Node.text "2"]

def c9Sc : Node := Node.elem "div" [] ["gap-8", "justify-center"] [c9Span1, c9Span2]

def c9Sdd : Node :=
  Node.elem "div" [] ["tabular-nums"]
    [Node.elem "img" [("alt", "A")] [] [], Node.elem "img" [("alt", "B")] [] [],
      c9Sc]

def c9Row : Node :=
  Node.elem "div" [] ["grid", "grid-cols-3", "h-44", "items-center"] [c9Sdd]

def c9bSpan1 : Node := Node.elem "span" [] ["font-black"] [Node.text "1"]

def c9bSpan2 : Node := Node.elem "span" [] ["opacity-50"] [Node.text "0"]

def c9bSc : Node :=
  Node.elem "div" [] ["gap-8", "justify-center"] [c9bSpan1, c9bSpan2]

def c9bSdd : Node :=
  Node.elem "div" [] ["tabular-nums"]
    [Node.elem "img" [("alt", "A")] [] [], Node.elem "img" [("alt", "B")] [] [],
      c9bSc]

def c9bRow : Node :=
  Node.elem "div" [] ["grid", "grid-cols-3", "h-44", "items-center"] [c9bSdd]

/-- Every game stored in a bucket holds a datetime, and sits under its own
day-month key. -/
def BucketsSound (bd : List (String × List GameData)) : Prop :=
  ∀ k1 gs1, (k1, gs1) ∈ bd → ∀ g1 ∈ gs1,
    ∃ d1, g1.date_time = PyDateVal.dt d1 ∧ k1 = dateKey d1

def c10Game : GameData :=
  ⟨"R", "A", "B", "Scheduled", "x", PyDateVal.dt ⟨19876, 0⟩, none, "N/A", "N/A",
    none⟩

/-! ## Claims -/

/-- C4: for every reference instant, `parse_relative_date_string` applied to
the empty string or to the literal string `"N/A"` returns no value (and, the
guard being the first statement of the function, no error is raised). -/
theorem empty_and_na_resolve_to_none (dp : String → Option DateTime)
    (cur : DateTime) :
    parse_relative_date_string dp "" cur = none ∧
    parse_relative_date_string dp "N/A" cur = none :=
  ⟨rfl, rfl⟩

/-- C2: evaluating the extractor at the failing input: the run aborts with
the modelled `AttributeError` instead of emitting the record. -/
theorem unparseable_date_aborts_extraction :
    parse_esports_data (fun _ => none) (fun _ => "") c2Doc ⟨4, 540⟩ =
      Except.error "AttributeError: NoneType object has no attribute strftime" :=
  rfl

/-- C1 (counterexample): the live record's `date_time` is absent and in
particular differs from the reference instant supplied for the run. -/
theorem live_record_counterexample :
    parse_esports_data (fun _ => none) (fun _ => "") c1Doc ⟨100, 0⟩ =
      Except.ok [⟨"Unknown Region", "Alpha", "Beta", "Live Now", "N/A",
        PyDateVal.absent, none, "N/A", "N/A", none⟩] ∧
    PyDateVal.absent ≠ PyDateVal.dt ⟨100, 0⟩ :=
  ⟨rfl, by decide⟩

/-- C1 (amended): for every schedule list item that contains a live
indicator node, the record produced by the per-item extractor (applied by
`parse_esports_data` to each detected list item) has status `"Live Now"`
and raw date text `"N/A"`, and its `date_time` is *absent* (so live matches
enter no date bucket), rather than being the reference instant. -/
theorem live_item_yields_absent_instant (dp : String → Option DateTime)
    (fmt : DateTime → String) (cur : DateTime) (region : String) (li : Node)
    (hlive : (findFirst li liveClockPred).isSome = true) :
    ∃ g, parseGameItem dp fmt cur region li = Except.ok g ∧
      g.live_status = "Live Now" ∧ g.date_string = "N/A" ∧
      g.date_time = PyDateVal.absent := by
  obtain ⟨v, hv⟩ := Option.isSome_iff_exists.mp hlive
  simp only [parseGameItem, hv]
  exact ⟨_, rfl, rfl, rfl, rfl⟩

theorem live_item_yields_absent_instant_witness :
    (findFirst c1LiveLi liveClockPred).isSome = true ∧
    ∃ g, parseGameItem (fun _ => none) (fun _ => "") ⟨0, 0⟩ "R" c1LiveLi =
        Except.ok g ∧
      g.live_status = "Live Now" ∧ g.date_string = "N/A" ∧
      g.date_time = PyDateVal.absent :=
  ⟨rfl, live_item_yields_absent_instant _ _ _ _ _ rfl⟩

/-- C5: whenever the primary parsing fails and the `dateparser` fallback
produces an instant whose calendar date strictly precedes the reference
instant's calendar date, and the day token of the input was not `today`,
`parse_relative_date_string` discards that instant and returns no value.
(In fact the `today` guard at line 219 is unreachable in the discarding
branch — a fallback date strictly before the reference date is discarded
even for a `today` token — but the claim only asserts the non-`today`
direction.) -/
theorem fallback_past_date_discarded (dp : String → Option DateTime)
    (s : String) (cur p : DateTime) (day : String) (rest : List String)
    (hprim : primaryParse s cur = none)
    (hparts : pySplit (pyLower s) = day :: rest)
    (hday : day ≠ "today")
    (hdp : dp s = some p)
    (hpast : p.day < cur.day) :
    parse_relative_date_string dp s cur = none := by
  unfold parse_relative_date_string
  by_cases h0 : s = "" ∨ s = "N/A"
  · rw [if_pos h0]
  · rw [if_neg h0]
    simp only [hprim, hdp, hparts]
    have hlt : DateTime.ltb p cur = true := by
      simp only [DateTime.ltb, Bool.or_eq_true, decide_eq_true_eq]
      exact Or.inl hpast
    have hne : (day == "today") = false := by
      simp only [beq_eq_false_iff_ne, ne_eq]; exact hday
    simp [hlt, hne, hpast]

theorem fallback_past_date_discarded_witness :
    primaryParse "foo 1:00pm" ⟨0, 0⟩ = none ∧
    pySplit (pyLower "foo 1:00pm") = ["foo", "1:00pm"] ∧
    ("foo" : String) ≠ "today" ∧
    (fun (_ : String) => some (⟨-1, 0⟩ : DateTime)) "foo 1:00pm" = some ⟨-1, 0⟩ ∧
    (⟨-1, 0⟩ : DateTime).day < (⟨0, 0⟩ : DateTime).day ∧
    parse_relative_date_string (fun _ => some ⟨-1, 0⟩) "foo 1:00pm" ⟨0, 0⟩ = none :=
  ⟨rfl, rfl, by decide, rfl, by decide,
    fallback_past_date_discarded (fun _ => some ⟨-1, 0⟩) "foo 1:00pm" ⟨0, 0⟩
      ⟨-1, 0⟩ "foo" ["1:00pm"] rfl rfl (by decide) rfl (by decide)⟩

/-- C7: a game record that already carries an h2h is skipped by the matching
loop.  Whatever a pass of the loop body produced, if the record then carries
an h2h, a second pass (with any browser behaviour, page date and run time)
returns the record exactly unchanged: the h2h is neither duplicated nor
overwritten. -/
theorem merge_loop_idempotent (f1 f2 : GameData → Option Node)
    (d1 d2 : String) (r1 r2 : DateTime) (g : GameData) (hh : H2HData)
    (hmerged : (processPlaynowGame f1 d1 r1 g).dpm_h2h = some hh) :
    processPlaynowGame f2 d2 r2 (processPlaynowGame f1 d1 r1 g) =
      processPlaynowGame f1 d1 r1 g := by
  generalize hg1 : processPlaynowGame f1 d1 r1 g = g1 at hmerged
  unfold processPlaynowGame
  rw [hmerged]
  rfl

theorem merge_loop_idempotent_witness :
    (processPlaynowGame (fun _ => none) "" ⟨0, 0⟩ c7Game).dpm_h2h =
      some ⟨some "3", some "9", none, none, []⟩ ∧
    processPlaynowGame (fun _ => none) "" ⟨0, 0⟩
        (processPlaynowGame (fun _ => none) "" ⟨0, 0⟩ c7Game) =
      processPlaynowGame (fun _ => none) "" ⟨0, 0⟩ c7Game :=
  ⟨rfl, merge_loop_idempotent (fun _ => none) (fun _ => none) "" "" ⟨0, 0⟩ ⟨0, 0⟩
    c7Game ⟨some "3", some "9", none, none, []⟩ rfl⟩

/-! ### C3: weekday resolution -/

theorem ltb_eq_true_iff (a b : DateTime) :
    DateTime.ltb a b = true ↔
      (a.day < b.day ∨ (a.day = b.day ∧ a.minute < b.minute)) := by
  simp [DateTime.ltb, Bool.or_eq_true, decide_eq_true_eq, Bool.and_eq_true,
    beq_iff_eq]

theorem daysMap_bounds {s : String} {w : Int} (h : daysMap s = some w) :
    0 ≤ w ∧ w ≤ 6 := by
  unfold daysMap at h
  split_ifs at h <;> (injection h with h; omega)

theorem pyWeekday_bounds (d : DateTime) : 0 ≤ pyWeekday d ∧ pyWeekday d < 7 :=
  ⟨Int.emod_nonneg _ (by norm_num), Int.emod_lt_of_pos _ (by norm_num)⟩

/-- The weekday branch of the primary parser, characterized: the naive
same-week candidate (the target weekday in the reference's Monday-based week,
combined with the parsed time) is advanced by exactly 7 days precisely when
it lies strictly before the reference instant. -/
theorem primaryParse_weekday (s : String) (cur : DateTime) (day : String)
    (rest : List String) (t : Nat) (w : Int)
    (hparts : pySplit (pyLower s) = day :: rest)
    (hday1 : day ≠ "today") (hday2 : day ≠ "tomorrow")
    (hmap : daysMap (pyTake day 3) = some w)
    (htime : parseEventTime (String.join rest) = some t) :
    primaryParse s cur =
      some (if DateTime.ltb ⟨cur.day + (w - pyWeekday cur), t⟩ cur = true
        then ⟨cur.day + (w - pyWeekday cur) + 7, t⟩
        else ⟨cur.day + (w - pyWeekday cur), t⟩) := by
  obtain ⟨hw0, hw6⟩ := daysMap_bounds hmap
  obtain ⟨hc0, hc7⟩ := pyWeekday_bounds cur
  unfold primaryParse
  simp only [hparts, htime]
  rw [if_neg hday1, if_neg hday2]
  simp only [hmap]
  set cw := pyWeekday cur with hcw
  by_cases hneg : w - cw < 0
  · rw [if_pos hneg]
    have h2 : DateTime.ltb ⟨cur.day + (w - cw), t⟩ cur = true := by
      simp only [ltb_eq_true_iff]; omega
    have h1 : DateTime.ltb ⟨cur.day + (w - cw + 7), t⟩ cur = false := by
      rw [Bool.eq_false_iff]
      simp only [ne_eq, ltb_eq_true_iff]
      omega
    rw [h1, h2]
    simp only [Bool.false_and, Bool.false_eq_true, if_false, if_true,
      Option.some.injEq, DateTime.mk.injEq, and_true]
    omega
  · rw [if_neg hneg]
    by_cases hlt : DateTime.ltb ⟨cur.day + (w - cw), t⟩ cur = true
    · have h0 : w - cw = 0 := by
        simp only [ltb_eq_true_iff] at hlt; omega
      have hle : (decide (cur.day + (w - cw) ≤ cur.day)) = true := by
        simp only [decide_eq_true_eq]; omega
      rw [hlt, hle]
      simp
    · have hltf : DateTime.ltb ⟨cur.day + (w - cw), t⟩ cur = false :=
        Bool.eq_false_iff.mpr hlt
      rw [hltf]
      simp

/-- When the primary parser succeeds the fallback is never consulted. -/
theorem parse_relative_of_primary (dp : String → Option DateTime)
    (s : String) (cur c : DateTime) (h1 : s ≠ "") (h2 : s ≠ "N/A")
    (hp : primaryParse s cur = some c) :
    parse_relative_date_string dp s cur = some c := by
  unfold parse_relative_date_string
  rw [if_neg (by rintro (h | h); exacts [h1 h, h2 h])]
  simp only [hp]

/-- C3: for every named-weekday token (not `today`/`tomorrow`) with a
well-formed time, if the naive same-week candidate instant — the target
weekday placed in the reference's (Monday-based) week, combined with the
parsed time — is strictly before the reference instant, the resolver returns
exactly that candidate plus 7 days; and in every case the named-weekday
resolution is never strictly before the reference instant. -/
theorem weekday_resolution_never_past (dp : String → Option DateTime)
    (s : String) (cur : DateTime) (day : String) (rest : List String)
    (t : Nat) (w : Int)
    (hparts : pySplit (pyLower s) = day :: rest)
    (hday1 : day ≠ "today") (hday2 : day ≠ "tomorrow")
    (hmap : daysMap (pyTake day 3) = some w)
    (htime : parseEventTime (String.join rest) = some t) :
    (DateTime.ltb ⟨cur.day + (w - pyWeekday cur), t⟩ cur = true →
      parse_relative_date_string dp s cur =
        some ⟨cur.day + (w - pyWeekday cur) + 7, t⟩) ∧
    (∃ r, parse_relative_date_string dp s cur = some r ∧
      DateTime.ltb r cur = false) := by
  obtain ⟨hw0, hw6⟩ := daysMap_bounds hmap
  obtain ⟨hc0, hc7⟩ := pyWeekday_bounds cur
  have hs1 : s ≠ "" := by
    intro he; subst he
    rw [show pyLower "" = "" from rfl,
      show pySplit "" = ([] : List String) from rfl] at hparts
    exact List.noConfusion hparts
  have hs2 : s ≠ "N/A" := by
    intro he; subst he
    rw [show pyLower "N/A" = "n/a" from rfl,
      show pySplit "n/a" = ["n/a"] from rfl] at hparts
    injection hparts with hd tl
    rw [← hd] at hmap
    rw [show daysMap (pyTake "n/a" 3) = none from rfl] at hmap
    exact Option.noConfusion hmap
  have hchar := primaryParse_weekday s cur day rest t w hparts hday1 hday2 hmap htime
  constructor
  · intro hlt
    rw [if_pos hlt] at hchar
    exact parse_relative_of_primary dp s cur _ hs1 hs2 hchar
  · by_cases hlt : DateTime.ltb ⟨cur.day + (w - pyWeekday cur), t⟩ cur = true
    · rw [if_pos hlt] at hchar
      refine ⟨_, parse_relative_of_primary dp s cur _ hs1 hs2 hchar, ?_⟩
      rw [Bool.eq_false_iff]
      simp only [ne_eq, ltb_eq_true_iff]
      omega
    · rw [if_neg hlt] at hchar
      exact ⟨_, parse_relative_of_primary dp s cur _ hs1 hs2 hchar,
        Bool.eq_false_iff.mpr hlt⟩

theorem weekday_resolution_never_past_witness :
    pySplit (pyLower "mon 1:00pm") = ["mon", "1:00pm"] ∧
    daysMap (pyTake "mon" 3) = some 0 ∧
    parseEventTime (String.join ["1:00pm"]) = some 780 ∧
    DateTime.ltb ⟨(⟨4, 840⟩ : DateTime).day + (0 - pyWeekday ⟨4, 840⟩), 780⟩
      ⟨4, 840⟩ = true ∧
    parse_relative_date_string (fun _ => none) "mon 1:00pm" ⟨4, 840⟩ =
      some ⟨(⟨4, 840⟩ : DateTime).day + (0 - pyWeekday ⟨4, 840⟩) + 7, 780⟩ :=
  ⟨rfl, rfl, rfl, rfl,
    (weekday_resolution_never_past (fun _ => none) "mon 1:00pm" ⟨4, 840⟩ "mon"
      ["1:00pm"] 780 0 rfl (by decide) (by decide) rfl rfl).1 rfl⟩

/-! ### C6: team-order alignment of the merged HeadToHead -/

/-- C6: for a merged pair (the stats view's two team identities match the
schedule record's, in one of the two orientations, case-insensitively and
whitespace-trimmed), the attached all-time win counts are aligned to the
record's `team1`/`team2`: copied straight for the straight orientation, and
swapped when the stats document presented the teams in the reverse order.
(The code tests the straight orientation first, so the reversed case carries
the corresponding negative hypothesis; when the names match neither
orientation the counts are stored under separate dpm-order keys instead.) -/
theorem h2h_alignment (soup : Node) (g : GameData) (ds : String)
    (rdt : DateTime) (sec : Node)
    (hsec : findH2HSection soup = some sec) :
    ((normName (dpmTeamNames sec).1 = normName g.team1_name ∧
      normName (dpmTeamNames sec).2 = normName g.team2_name) →
      ∃ h, (parse_h2h_from_dpm_match_view soup g ds rdt).dpm_h2h = some h ∧
        h.all_time_wins_t1 = some (parseAllTimeWins sec).1 ∧
        h.all_time_wins_t2 = some (parseAllTimeWins sec).2) ∧
    ((normName (dpmTeamNames sec).1 = normName g.team2_name ∧
      normName (dpmTeamNames sec).2 = normName g.team1_name) →
      ¬(normName (dpmTeamNames sec).1 = normName g.team1_name ∧
        normName (dpmTeamNames sec).2 = normName g.team2_name) →
      ∃ h, (parse_h2h_from_dpm_match_view soup g ds rdt).dpm_h2h = some h ∧
        h.all_time_wins_t1 = some (parseAllTimeWins sec).2 ∧
        h.all_time_wins_t2 = some (parseAllTimeWins sec).1) := by
  unfold parse_h2h_from_dpm_match_view
  simp only [hsec]
  constructor
  · intro hstr
    rw [if_pos hstr]
    exact ⟨_, rfl, rfl, rfl⟩
  · intro hrev hnstr
    rw [if_neg hnstr, if_pos hrev]
    exact ⟨_, rfl, rfl, rfl⟩

theorem h2h_alignment_witness :
    findH2HSection c6Soup = some c6Sec ∧
    (normName (dpmTeamNames c6Sec).1 = normName c6Game.team2_name ∧
      normName (dpmTeamNames c6Sec).2 = normName c6Game.team1_name) ∧
    ∃ h, (parse_h2h_from_dpm_match_view c6Soup c6Game "" ⟨0, 0⟩).dpm_h2h = some h ∧
      h.all_time_wins_t1 = some (parseAllTimeWins c6Sec).2 ∧
      h.all_time_wins_t2 = some (parseAllTimeWins c6Sec).1 :=
  ⟨rfl, ⟨rfl, rfl⟩,
    (h2h_alignment c6Soup c6Game "" ⟨0, 0⟩ c6Sec rfl).2 ⟨rfl, rfl⟩ (by decide)⟩

/-! ### C8: the ALL TIME WINS numeric tokens -/

/-- C8 (counterexample): an ALL TIME WINS container holding *three* numeric
tokens in document order.  The claim says the first two become the win
counts ("5" and "7"); the code's `len(numbers) == 2` test fails and both
counts stay "N/A". -/
theorem all_time_wins_counterexample :
    findFirst c8Sec allWinsContainerPred = some c8Container ∧
    strContains (nodeText c8Container) "ALL TIME WINS" = true ∧
    numericTokens c8Container = ["5", "7", "9"] ∧
    parseAllTimeWins c8Sec = ("N/A", "N/A") ∧
    parseAllTimeWins c8Sec ≠ ("5", "7") :=
  ⟨rfl, rfl, rfl, rfl, by decide⟩

/-- C8 (amended): in the ALL TIME WINS container, the two win counts are the
first and second numeric tokens only when *exactly two* numeric tokens are
present; with fewer than two — or more than two — both counts are "N/A". -/
theorem all_time_wins_exactly_two (sec c : Node)
    (hc : findFirst sec allWinsContainerPred = some c)
    (hl : strContains (nodeText c) "ALL TIME WINS" = true) :
    parseAllTimeWins sec =
      (if (numericTokens c).length = 2
       then ((numericTokens c).getD 0 "N/A", (numericTokens c).getD 1 "N/A")
       else ("N/A", "N/A")) := by
  unfold parseAllTimeWins
  simp only [hc, hl, if_true]

theorem all_time_wins_exactly_two_witness :
    findFirst c8Sec2 allWinsContainerPred = some c8Container2 ∧
    strContains (nodeText c8Container2) "ALL TIME WINS" = true ∧
    parseAllTimeWins c8Sec2 =
      (if (numericTokens c8Container2).length = 2
       then ((numericTokens c8Container2).getD 0 "N/A",
         (numericTokens c8Container2).getD 1 "N/A")
       else ("N/A", "N/A")) :=
  ⟨rfl, rfl, all_time_wins_exactly_two c8Sec2 c8Container2 rfl rfl⟩

/-! ### C9: the historical-game winner rule -/

/-- C9 (counterexample): a row whose two score spans *both* carry the
full-emphasis marker `font-black`.  The claim says the winner is unresolved;
the code's first branch fires and team1 ("A") is declared the winner. -/
theorem hist_winner_counterexample :
    c9Span1.classes.contains "font-black" = true ∧
    c9Span2.classes.contains "font-black" = true ∧
    directSpans c9Sc = [c9Span1, c9Span2] ∧
    (parseHistGame c9Row).winner = "A" ∧
    ("A" : String) ≠ "N/A" :=
  ⟨rfl, rfl, rfl, rfl, by decide⟩

/-- C9 (amended): for a historical-game row whose score container holds
exactly two direct spans, the winner is team1 when span1 carries
`font-black` (even if span2 does too) or span1 lacks `opacity-50` while
span2 carries it; otherwise team2 under the mirrored condition; otherwise
unresolved ("N/A").  A row with exactly one full-emphasis span behaves as
the claim states, but both-full-emphasis rows resolve to team1, and
reduced-emphasis asymmetry alone also resolves a winner. -/
theorem hist_winner_rule (gd sdd sc s1 s2 : Node)
    (hsdd : findFirst gd scoreDetailsPred = some sdd)
    (hsc : findFirst sdd scoreContainerPred = some sc)
    (hspans : directSpans sc = [s1, s2]) :
    (parseHistGame gd).winner =
      (if s1.classes.contains "font-black"
          || (!(s1.classes.contains "opacity-50") && s2.classes.contains "opacity-50")
       then histTeamName sdd 0
       else if s2.classes.contains "font-black"
          || (!(s2.classes.contains "opacity-50") && s1.classes.contains "opacity-50")
       then histTeamName sdd 1
       else "N/A") := by
  unfold parseHistGame
  simp only [hsdd, hsc, hspans]

theorem hist_winner_rule_witness :
    findFirst c9bRow scoreDetailsPred = some c9bSdd ∧
    findFirst c9bSdd scoreContainerPred = some c9bSc ∧
    directSpans c9bSc = [c9bSpan1, c9bSpan2] ∧
    (parseHistGame c9bRow).winner =
      (if c9bSpan1.classes.contains "font-black"
          || (!(c9bSpan1.classes.contains "opacity-50")
            && c9bSpan2.classes.contains "opacity-50")
       then histTeamName c9bSdd 0
       else if c9bSpan2.classes.contains "font-black"
          || (!(c9bSpan2.classes.contains "opacity-50")
            && c9bSpan1.classes.contains "opacity-50")
       then histTeamName c9bSdd 1
       else "N/A") :=
  ⟨rfl, rfl, rfl, hist_winner_rule c9bRow c9bSdd c9bSc c9bSpan1 c9bSpan2 rfl rfl rfl⟩

/-! ### C10: date bucketing and URL generation -/

theorem listIntLe_total (a b : List Int) :
    listIntLe a b = true ∨ listIntLe b a = true := by
  induction a generalizing b with
  | nil => exact Or.inl rfl
  | cons x xs ih =>
    cases b with
    | nil => exact Or.inr rfl
    | cons y ys =>
      simp only [listIntLe, Bool.or_eq_true, decide_eq_true_eq, Bool.and_eq_true,
        beq_iff_eq]
      rcases lt_trichotomy x y with h | h | h
      · exact Or.inl (Or.inl h)
      · subst h
        rcases ih ys with h2 | h2
        · exact Or.inl (Or.inr ⟨rfl, h2⟩)
        · exact Or.inr (Or.inr ⟨rfl, h2⟩)
      · exact Or.inr (Or.inl h)

theorem listIntLe_trans (a b c : List Int) (h1 : listIntLe a b = true)
    (h2 : listIntLe b c = true) : listIntLe a c = true := by
  induction a generalizing b c with
  | nil => rfl
  | cons x xs ih =>
    cases b with
    | nil => simp [listIntLe] at h1
    | cons y ys =>
      cases c with
      | nil => simp [listIntLe] at h2
      | cons z zs =>
        simp only [listIntLe, Bool.or_eq_true, decide_eq_true_eq,
          Bool.and_eq_true, beq_iff_eq] at h1 h2 ⊢
        rcases h1 with h1 | ⟨he1, h1⟩
        · rcases h2 with h2 | ⟨he2, h2⟩
          · exact Or.inl (h1.trans h2)
          · exact Or.inl (he2 ▸ h1)
        · rcases h2 with h2 | ⟨he2, h2⟩
          · exact Or.inl (he1 ▸ h2)
          · exact Or.inr ⟨he1.trans he2, ih ys zs h1 h2⟩

theorem string_append_cancel (a b c : String) (h : a ++ b = a ++ c) : b = c := by
  obtain ⟨la⟩ := a
  obtain ⟨lb⟩ := b
  obtain ⟨lc⟩ := c
  have h2 : la ++ lb = la ++ lc := congrArg String.data h
  exact congrArg String.mk (List.append_cancel_left h2)

theorem bucketAppend_mem_new (bd : List (String × List GameData)) (k : String)
    (g : GameData) : ∃ gs, (k, gs) ∈ bucketAppend bd k g ∧ g ∈ gs := by
  induction bd with
  | nil => exact ⟨[g], List.mem_singleton_self _, List.mem_singleton_self _⟩
  | cons p rest ih =>
    obtain ⟨k1, gs1⟩ := p
    simp only [bucketAppend]
    by_cases h : k1 = k
    · subst h
      rw [if_pos rfl]
      exact ⟨gs1 ++ [g], List.mem_cons_self _ _,
        List.mem_append_right _ (List.mem_singleton_self _)⟩
    · rw [if_neg h]
      obtain ⟨gs, h1, h2⟩ := ih
      exact ⟨gs, List.mem_cons_of_mem _ h1, h2⟩

theorem bucketAppend_mem_old (bd : List (String × List GameData)) (k : String)
    (g : GameData) (k0 : String) (gs0 : List GameData) (g0 : GameData)
    (hm : (k0, gs0) ∈ bd) (hg : g0 ∈ gs0) :
    ∃ gs1, (k0, gs1) ∈ bucketAppend bd k g ∧ g0 ∈ gs1 := by
  induction bd with
  | nil => cases hm
  | cons p rest ih =>
    obtain ⟨k1, gs1⟩ := p
    simp only [bucketAppend]
    rcases List.mem_cons.mp hm with he | hm2
    · injection he with e1 e2
      subst e1
      subst e2
      by_cases h : k0 = k
      · rw [if_pos h]
        exact ⟨gs0 ++ [g], List.mem_cons_self _ _, List.mem_append_left _ hg⟩
      · rw [if_neg h]
        exact ⟨gs0, List.mem_cons_self _ _, hg⟩
    · by_cases h : k1 = k
      · rw [if_pos h]
        exact ⟨gs0, List.mem_cons_of_mem _ hm2, hg⟩
      · rw [if_neg h]
        obtain ⟨gs2, ha, hb⟩ := ih hm2
        exact ⟨gs2, List.mem_cons_of_mem _ ha, hb⟩

theorem bucketAppend_mem_src (bd : List (String × List GameData)) (k : String)
    (g : GameData) :
    ∀ k1 gs1, (k1, gs1) ∈ bucketAppend bd k g → ∀ g1 ∈ gs1,
      (∃ gs0, (k1, gs0) ∈ bd ∧ g1 ∈ gs0) ∨ (g1 = g ∧ k1 = k) := by
  induction bd with
  | nil =>
    intro k1 gs1 hm g1 hg1
    simp only [bucketAppend, List.mem_singleton] at hm
    cases hm
    simp only [List.mem_singleton] at hg1
    exact Or.inr ⟨hg1, rfl⟩
  | cons p rest ih =>
    obtain ⟨k2, gs2⟩ := p
    intro k1 gs1 hm g1 hg1
    simp only [bucketAppend] at hm
    by_cases h : k2 = k
    · rw [if_pos h] at hm
      rcases List.mem_cons.mp hm with he | hm2
      · injection he with e1 e2
        subst e1
        subst e2
        rcases List.mem_append.mp hg1 with h1 | h1
        · exact Or.inl ⟨gs2, List.mem_cons_self _ _, h1⟩
        · simp only [List.mem_singleton] at h1
          exact Or.inr ⟨h1, h⟩
      · exact Or.inl ⟨gs1, List.mem_cons_of_mem _ hm2, hg1⟩
    · rw [if_neg h] at hm
      rcases List.mem_cons.mp hm with he | hm2
      · injection he with e1 e2
        subst e1
        subst e2
        exact Or.inl ⟨gs1, List.mem_cons_self _ _, hg1⟩
      · rcases ih k1 gs1 hm2 g1 hg1 with ⟨gs0, ha, hb⟩ | hr
        · exact Or.inl ⟨gs0, List.mem_cons_of_mem _ ha, hb⟩
        · exact Or.inr hr

theorem addGame_sound (acc : List String × List (String × List GameData))
    (g : GameData) (hsound : BucketsSound acc.2) :
    BucketsSound (addGameToBuckets acc g).2 := by
  intro k1 gs1 hm g1 hg1
  cases hdt : g.date_time with
  | dt d =>
    simp only [addGameToBuckets, hdt] at hm
    rcases bucketAppend_mem_src acc.2 (dateKey d) g k1 gs1 hm g1 hg1 with
      ⟨gs0, h1, h2⟩ | ⟨he, hk⟩
    · exact hsound k1 gs0 h1 g1 h2
    · subst he
      exact ⟨d, hdt, hk⟩
  | absent =>
    simp only [addGameToBuckets, hdt] at hm
    exact hsound k1 gs1 hm g1 hg1
  | pyNone =>
    simp only [addGameToBuckets, hdt] at hm
    exact hsound k1 gs1 hm g1 hg1

theorem addGame_nodup (acc : List String × List (String × List GameData))
    (g : GameData) (hnd : acc.1.Nodup) : (addGameToBuckets acc g).1.Nodup := by
  cases hdt : g.date_time with
  | dt d =>
    simp only [addGameToBuckets, hdt]
    by_cases hc : acc.1.contains (dateKey d)
    · rwa [if_pos hc]
    · rw [if_neg hc]
      refine List.Nodup.append hnd (List.nodup_singleton _) ?_
      intro a ha hb
      simp only [List.mem_singleton] at hb
      subst hb
      exact hc (List.elem_iff.mpr ha)
  | absent => simp only [addGameToBuckets, hdt]; exact hnd
  | pyNone => simp only [addGameToBuckets, hdt]; exact hnd

theorem addGame_mem_old_bucket (acc : List String × List (String × List GameData))
    (g : GameData) (k0 : String) (gs0 : List GameData) (g0 : GameData)
    (hm : (k0, gs0) ∈ acc.2) (hg : g0 ∈ gs0) :
    ∃ gs1, (k0, gs1) ∈ (addGameToBuckets acc g).2 ∧ g0 ∈ gs1 := by
  cases hdt : g.date_time with
  | dt d =>
    simp only [addGameToBuckets, hdt]
    exact bucketAppend_mem_old acc.2 (dateKey d) g k0 gs0 g0 hm hg
  | absent => simp only [addGameToBuckets, hdt]; exact ⟨gs0, hm, hg⟩
  | pyNone => simp only [addGameToBuckets, hdt]; exact ⟨gs0, hm, hg⟩

theorem addGame_mem_old_key (acc : List String × List (String × List GameData))
    (g : GameData) (k0 : String) (h : k0 ∈ acc.1) :
    k0 ∈ (addGameToBuckets acc g).1 := by
  cases hdt : g.date_time with
  | dt d =>
    simp only [addGameToBuckets, hdt]
    by_cases hc : acc.1.contains (dateKey d)
    · rwa [if_pos hc]
    · rw [if_neg hc]
      exact List.mem_append_left _ h
  | absent => simp only [addGameToBuckets, hdt]; exact h
  | pyNone => simp only [addGameToBuckets, hdt]; exact h

theorem addGame_self (acc : List String × List (String × List GameData))
    (g : GameData) (d : DateTime) (hd : g.date_time = PyDateVal.dt d) :
    (∃ gs, (dateKey d, gs) ∈ (addGameToBuckets acc g).2 ∧ g ∈ gs) ∧
    dateKey d ∈ (addGameToBuckets acc g).1 := by
  constructor
  · simp only [addGameToBuckets, hd]
    exact bucketAppend_mem_new acc.2 (dateKey d) g
  · simp only [addGameToBuckets, hd]
    by_cases hc : acc.1.contains (dateKey d)
    · rw [if_pos hc]
      exact List.elem_iff.mp hc
    · rw [if_neg hc]
      exact List.mem_append_right _ (List.mem_singleton_self _)

theorem collect_aux (games : List GameData)
    (acc : List String × List (String × List GameData))
    (hsound : BucketsSound acc.2) (hnd : acc.1.Nodup) :
    BucketsSound (games.foldl addGameToBuckets acc).2 ∧
    (games.foldl addGameToBuckets acc).1.Nodup ∧
    (∀ g ∈ games, ∀ d, g.date_time = PyDateVal.dt d →
      (∃ gs, (dateKey d, gs) ∈ (games.foldl addGameToBuckets acc).2 ∧ g ∈ gs) ∧
      dateKey d ∈ (games.foldl addGameToBuckets acc).1) ∧
    (∀ k0 gs0 g0, (k0, gs0) ∈ acc.2 → g0 ∈ gs0 →
      ∃ gs1, (k0, gs1) ∈ (games.foldl addGameToBuckets acc).2 ∧ g0 ∈ gs1) ∧
    (∀ k0 ∈ acc.1, k0 ∈ (games.foldl addGameToBuckets acc).1) := by
  induction games generalizing acc with
  | nil =>
    simp only [List.foldl_nil]
    exact ⟨hsound, hnd, by simp, fun k0 gs0 g0 hm hg => ⟨gs0, hm, hg⟩,
      fun k0 h => h⟩
  | cons g rest ih =>
    simp only [List.foldl_cons]
    obtain ⟨A, B, C, D, E⟩ :=
      ih (addGameToBuckets acc g) (addGame_sound acc g hsound)
        (addGame_nodup acc g hnd)
    refine ⟨A, B, ?_, ?_, ?_⟩
    · intro g1 hg1 d hd
      rcases List.mem_cons.mp hg1 with he | hm
      · subst he
        obtain ⟨⟨gsx, hx1, hx2⟩, hk⟩ := addGame_self acc g1 d hd
        obtain ⟨gs1, hy1, hy2⟩ := D _ _ _ hx1 hx2
        exact ⟨⟨gs1, hy1, hy2⟩, E _ hk⟩
      · exact C g1 hm d hd
    · intro k0 gs0 g0 hm hg0
      obtain ⟨gs1, h1, h2⟩ := addGame_mem_old_bucket acc g k0 gs0 g0 hm hg0
      exact D k0 gs1 g0 h1 h2
    · intro k0 hk0
      exact E k0 (addGame_mem_old_key acc g k0 hk0)

/-- C10: a game contributes to `games_by_date` exactly when its `date_time`
entry holds a datetime value: every such game sits in the bucket of its
day-month key, every bucketed game holds a datetime (live games and games
with unparseable dates are in no bucket, hence can never receive h2h
enrichment), each occupied day-month key contributes exactly one URL, and
the URL list is the key list sorted ascending by the numeric (day, month)
tuple. -/
theorem date_urls_spec (games : List GameData) :
    (∀ g ∈ games, ∀ d, g.date_time = PyDateVal.dt d →
      ∃ gs, (dateKey d, gs) ∈ (create_dpm_lol_date_urls games).2 ∧ g ∈ gs) ∧
    (∀ kgs ∈ (create_dpm_lol_date_urls games).2, ∀ g1 ∈ kgs.2,
      ∃ d1, g1.date_time = PyDateVal.dt d1 ∧ kgs.1 = dateKey d1) ∧
    (∀ g ∈ games, ∀ d, g.date_time = PyDateVal.dt d →
      (create_dpm_lol_date_urls games).1.count (dpmBase ++ dateKey d) = 1) ∧
    (create_dpm_lol_date_urls games).1 =
      (sortedDateKeys games).map (fun k => dpmBase ++ k) ∧
    List.Sorted keyLe (sortedDateKeys games) := by
  obtain ⟨A, B, C, D, E⟩ :=
    collect_aux games ([], []) (by intro k1 gs1 hm; cases hm) List.nodup_nil
  haveI : IsTotal String keyLe := ⟨fun a b => listIntLe_total _ _⟩
  haveI : IsTrans String keyLe := ⟨fun _ _ _ => listIntLe_trans _ _ _⟩
  refine ⟨?_, ?_, ?_, rfl, List.sorted_insertionSort keyLe _⟩
  · intro g hg d hd
    exact (C g hg d hd).1
  · intro kgs hm g1 hg1
    exact A kgs.1 kgs.2 (by rwa [Prod.mk.eta]) g1 hg1
  · intro g hg d hd
    have hmem : dateKey d ∈ (collectDates games).1 := (C g hg d hd).2
    have hperm := List.perm_insertionSort keyLe (collectDates games).1
    have hmem2 : dateKey d ∈ sortedDateKeys games := hperm.mem_iff.mpr hmem
    have hnd2 : (sortedDateKeys games).Nodup := hperm.nodup_iff.mpr B
    have hcount : (sortedDateKeys games).count (dateKey d) = 1 :=
      List.count_eq_one_of_mem hnd2 hmem2
    have hinj : Function.Injective (fun k => dpmBase ++ k : String → String) :=
      fun a b hab => string_append_cancel dpmBase a b hab
    calc ((sortedDateKeys games).map (fun k => dpmBase ++ k)).count
          (dpmBase ++ dateKey d)
        = (sortedDateKeys games).count (dateKey d) :=
          List.count_map_of_injective _ _ hinj _
      _ = 1 := hcount

theorem date_urls_spec_witness :
    c10Game ∈ [c10Game] ∧ c10Game.date_time = PyDateVal.dt ⟨19876, 0⟩ ∧
    (create_dpm_lol_date_urls [c10Game]).1.count (dpmBase ++ dateKey ⟨19876, 0⟩) = 1 :=
  ⟨List.mem_singleton_self _, rfl,
    (date_urls_spec [c10Game]).2.2.1 c10Game (List.mem_singleton_self _)
      ⟨19876, 0⟩ rfl⟩
